import Mathlib

/-!
Verification of the upload/asset manager and canvas-insertion policy of the
Image-editor repository (src/index.js), as a shallow embedding in Lean 4.

The embedded pieces are:
* the `uploadsManager` singleton (uploads list, listener list, add/delete/
  subscribe/notify) — modelled as a pure state-passing transition system,
  with notifications made explicit as emitted events;
* the id-freshness question for records created by `handleFileUpload`;
* the canvas-insertion sizing policy of `addImageToCanvas`
  (max bounding box 600×400, uniform downscale by
  `ratio = min(maxWidth/width, maxHeight/height)`), with JS numbers
  modelled as rationals;
* the dimension probe `getImageDimensions` (a Promise that resolves only in
  `img.onload`; there is no `onerror` handler and no `reject` call);
* the `handleDownload` filename guard (`if (!imageName.trim()) { alert; return }`);
* an object-identity (heap) model of the uploads array, capturing that every
  mutation rebuilds the array (`[...this.uploads, upload]`, `filter`) rather
  than mutating it in place.
-/

namespace ImageEditor

/-- An upload record, as built in `handleFileUpload`:
`{ id: Date.now() + Math.random(), name: file.name, url: dataUrl }`.
The id is a JS number, modelled as a rational. -/
structure Upload where
  id : ℚ
  name : String
  url : String
deriving DecidableEq, Repr

/-- The mutable state of the `uploadsManager` singleton: the `uploads` array
and the `listeners` array.  Listeners are identified abstractly by naturals
(the JS code stores function references; only identity matters). -/
structure StoreState where
  uploads : List Upload
  listeners : List ℕ
deriving DecidableEq, Repr

/-- The initial state of the singleton: `uploads: [], listeners: []`. -/
def emptyStore : StoreState := { uploads := [], listeners := [] }

/-- `getUploads() { return this.uploads; }` -/
def getUploads (s : StoreState) : List Upload := s.uploads

/-- `notifyListeners() { this.listeners.forEach(listener => listener(this.uploads)); }`
Each call to a listener is recorded as an event pairing the listener with the
snapshot it is passed. -/
def notifyListeners (s : StoreState) : List (ℕ × List Upload) :=
  s.listeners.map (fun l => (l, s.uploads))

/-- `addUpload(upload) { this.uploads = [...this.uploads, upload]; this.notifyListeners(); }`
Returns the new state together with the notification events emitted. -/
def addUpload (u : Upload) (s : StoreState) : StoreState × List (ℕ × List Upload) :=
  let s' : StoreState := { s with uploads := s.uploads ++ [u] }
  (s', notifyListeners s')

/-- `deleteUpload(id) { this.uploads = this.uploads.filter(upload => upload.id !== id); this.notifyListeners(); }` -/
def deleteUpload (i : ℚ) (s : StoreState) : StoreState × List (ℕ × List Upload) :=
  let s' : StoreState :=
    { s with uploads := s.uploads.filter (fun u => decide (u.id ≠ i)) }
  (s', notifyListeners s')

/-- `subscribe(listener) { this.listeners.push(listener); return () => {...}; }`
Subscribing emits no notification (no replay of past state). -/
def subscribe (l : ℕ) (s : StoreState) : StoreState × List (ℕ × List Upload) :=
  ({ s with listeners := s.listeners ++ [l] }, [])

/-- JavaScript semantics of `addUpload` called with a possibly-missing
argument: the body `this.uploads = [...this.uploads, upload]` spreads the old
array and appends whatever `upload` is — including `undefined` (`none`) when
the call supplies no argument.  There is no guard on the input. -/
def addUploadJs (upload : Option Upload) (uploads : List (Option Upload)) :
    List (Option Upload) :=
  uploads ++ [upload]

/-- A mutation of the store, for reasoning about operation sequences. -/
inductive Op where
  | add (u : Upload)
  | delete (i : ℚ)
deriving DecidableEq, Repr

/-- Apply one mutation to the state (discarding the emitted events). -/
def applyOp (s : StoreState) : Op → StoreState
  | .add u => (addUpload u s).1
  | .delete i => (deleteUpload i s).1

/-- Apply a sequence of mutations in order. -/
def runOps (s : StoreState) (ops : List Op) : StoreState :=
  ops.foldl applyOp s

/-- Whether the operation sequence contains a `deleteUpload` call with
the given id. -/
def deletesId (ops : List Op) (i : ℚ) : Bool :=
  ops.any (fun op => match op with | .delete j => decide (j = i) | .add _ => false)

/-- The records added by the sequence that are not removed by a later
operation of the sequence, in insertion order. -/
def survivingAdds : List Op → List Upload
  | [] => []
  | .add u :: rest => (if deletesId rest u.id then [] else [u]) ++ survivingAdds rest
  | .delete _ :: rest => survivingAdds rest

/-- The ids of the records added by the sequence, in order of the add calls. -/
def addIds : List Op → List ℚ
  | [] => []
  | .add u :: rest => u.id :: addIds rest
  | .delete _ :: rest => addIds rest

/-- Maximum width for canvas insertion: `const maxWidth = 600;`. -/
def maxWidth : ℚ := 600

/-- Maximum height for canvas insertion: `const maxHeight = 400;`. -/
def maxHeight : ℚ := 400

/-- The sizing computation of `addImageToCanvas`:
`if (width > maxWidth || height > maxHeight) { const ratio = Math.min(maxWidth / width, maxHeight / height); width *= ratio; height *= ratio; }`. -/
def targetSize (w h : ℚ) : ℚ × ℚ :=
  if w > maxWidth ∨ h > maxHeight then
    let ratio : ℚ := min (maxWidth / w) (maxHeight / h)
    (w * ratio, h * ratio)
  else (w, h)

/-- The scaling policy as the specification words it: if either dimension
exceeds its bound, scale both by `min(600/width, 400/height)`; otherwise
keep the intrinsic size. -/
def specTargetSize (w h : ℚ) : ℚ × ℚ :=
  if w > 600 ∨ h > 400 then
    (w * min (600 / w) (400 / h), h * min (600 / w) (400 / h))
  else (w, h)

/-- Outcome of asking the browser to load an image from a data URL:
either `img.onload` fires with intrinsic dimensions, or the load fails
(corrupt image: the browser fires `error`, never `load`). -/
inductive ImageLoad where
  | loads (width height : ℚ)
  | fails
deriving DecidableEq, Repr

/-- `getImageDimensions(dataUrl)` wraps the load in a Promise whose only
handler is `img.onload = () => resolve({width, height})`.  There is no
`onerror` handler and `reject` is never called, so when the load fails the
Promise never settles: `none` means the Promise stays pending forever. -/
def getImageDimensions : ImageLoad → Option (ℚ × ℚ)
  | .loads w h => some (w, h)
  | .fails => none

/-- What `addImageToCanvas(imageUrl)` ends up doing. -/
inductive InsertOutcome where
  /-- The `try` block completed: an element with the given size was added
  to the page and selected. -/
  | elementAdded (width height : ℚ)
  /-- The `catch` block ran: `console.error('Error adding image to canvas:', ...)`. -/
  | errorLogged
  /-- The `await getImageDimensions(...)` never settled, so neither the rest
  of the `try` block nor the `catch` block ever runs. -/
  | pending
deriving DecidableEq, Repr

/-- `addImageToCanvas`: await the dimension probe; on a resolved probe,
compute the target size and add + select the element.  When the probe's
Promise never settles (failed load), the function suspends forever: no
element is created and the `catch` block never executes, because a pending
Promise neither resolves nor rejects. -/
def addImageToCanvas (load : ImageLoad) : InsertOutcome :=
  match getImageDimensions load with
  | some (w, h) => .elementAdded (targetSize w h).1 (targetSize w h).2
  | none => .pending

/-- Characters removed by JavaScript `String.prototype.trim` (the ASCII
white-space and line-terminator characters). -/
def jsWhitespace (c : Char) : Bool :=
  c = ' ' || c = '\t' || c = '\n' || c = '\r' ||
    c = Char.ofNat 11 || c = Char.ofNat 12

/-- JavaScript `imageName.trim()`: strip leading and trailing whitespace. -/
def jsTrim (s : String) : String :=
  ⟨((s.data.dropWhile jsWhitespace).reverse.dropWhile jsWhitespace).reverse⟩

/-- What `handleDownload` does with the filename. -/
inductive DownloadResult where
  /-- `alert('Please enter an image name'); return;` — no link element is
  created and no download starts. -/
  | alerted
  /-- A link element is created with `link.download` set to this name and
  clicked. -/
  | downloaded (filename : String)
deriving DecidableEq, Repr

/-- The filename handling of `handleDownload`:
`if (!imageName.trim()) { alert('Please enter an image name'); return; }`
then `link.download = imageName.trim() + '.png'`.  A JS string is falsy
exactly when it is empty, so the guard fires iff the trimmed name is empty. -/
def handleDownload (imageName : String) : DownloadResult :=
  if jsTrim imageName = "" then .alerted
  else .downloaded (jsTrim imageName ++ ".png")

/-- Object-identity model of the uploads array.  The heap holds every array
object ever allocated; `cur` is the index of the array `this.uploads`
currently refers to.  JS arrays are mutable, but this code never mutates
one: each mutation builds a new array, which the model reflects by only
ever appending fresh cells to the heap. -/
structure HeapState where
  heap : List (List Upload)
  cur : ℕ
deriving DecidableEq, Repr

/-- The array `this.uploads` currently points to. -/
def curUploads (s : HeapState) : List Upload := s.heap.getD s.cur []

/-- Heap at module initialisation: `uploads: []` allocates one empty array. -/
def initHeap : HeapState := { heap := [[]], cur := 0 }

/-- `addUpload` at the heap level: `[...this.uploads, upload]` allocates a
fresh array (old array cells untouched) and repoints `this.uploads` at it. -/
def addUploadH (u : Upload) (s : HeapState) : HeapState :=
  { heap := s.heap ++ [curUploads s ++ [u]], cur := s.heap.length }

/-- `deleteUpload` at the heap level: `Array.prototype.filter` allocates a
fresh array and `this.uploads` is repointed at it. -/
def deleteUploadH (i : ℚ) (s : HeapState) : HeapState :=
  { heap := s.heap ++ [(curUploads s).filter (fun u => decide (u.id ≠ i))],
    cur := s.heap.length }

/-- Apply one mutation at the heap level. -/
def applyOpH (s : HeapState) : Op → HeapState
  | .add u => addUploadH u s
  | .delete i => deleteUploadH i s

/-- Apply a sequence of mutations at the heap level. -/
def runOpsH (s : HeapState) (ops : List Op) : HeapState :=
  ops.foldl applyOpH s

/-- Sample record with id 1. -/
def uA : Upload := { id := 1, name := "a.png", url := "data:a" }

/-- Sample record with the same id as `uA` but different payload. -/
def uB : Upload := { id := 1, name := "b.png", url := "data:b" }

/-- Sample record with id 2. -/
def uC : Upload := { id := 2, name := "c.png", url := "data:c" }

/-! Helper lemmas about the operation-sequence semantics. -/

theorem deletesId_cons_add (u : Upload) (ops : List Op) (j : ℚ) :
    deletesId (.add u :: ops) j = deletesId ops j := by
  simp [deletesId]

theorem deletesId_cons_delete (i : ℚ) (ops : List Op) (j : ℚ) :
    deletesId (.delete i :: ops) j = (decide (i = j) || deletesId ops j) := by
  simp [deletesId]

/-- Running a sequence of mutations from any state: the surviving part of the
initial uploads, followed by the adds of the sequence not later deleted. -/
theorem runOps_uploads (ops : List Op) : ∀ s : StoreState,
    (runOps s ops).uploads
      = s.uploads.filter (fun u => !(deletesId ops u.id)) ++ survivingAdds ops := by
  induction ops with
  | nil =>
    intro s
    simp [runOps, survivingAdds, deletesId]
  | cons op ops ih =>
    intro s
    cases op with
    | add u =>
      have h1 : runOps s (.add u :: ops) = runOps (applyOp s (.add u)) ops := rfl
      rw [h1, ih]
      simp only [applyOp, addUpload, List.filter_append, survivingAdds,
        deletesId_cons_add, List.filter_cons, List.filter_nil]
      cases hd : deletesId ops u.id <;> simp [hd]
    | delete i =>
      have h1 : runOps s (.delete i :: ops) = runOps (applyOp s (.delete i)) ops := rfl
      rw [h1, ih]
      simp only [applyOp, deleteUpload, List.filter_filter, survivingAdds]
      congr 1
      apply List.filter_congr
      intro a _
      by_cases hai : a.id = i
      · simp [hai, deletesId_cons_delete]
      · simp [hai, deletesId_cons_delete, Ne.symm hai]

/-- The ids of the surviving adds form a sublist of the ids of all adds. -/
theorem survivingAdds_ids_sublist (ops : List Op) :
    ((survivingAdds ops).map Upload.id).Sublist (addIds ops) := by
  induction ops with
  | nil => simp [survivingAdds, addIds]
  | cons op ops ih =>
    cases op with
    | add u =>
      by_cases h : deletesId ops u.id = true
      · simp only [survivingAdds, addIds, h, if_pos, List.nil_append]
        exact ih.cons _
      · simp only [survivingAdds, addIds, h, if_neg, List.singleton_append,
          List.map_cons]
        exact ih.cons₂ _
    | delete i =>
      simpa [survivingAdds, addIds] using ih

/-- Heap cells present before a sequence of mutations are unchanged by it:
every mutation only appends a freshly allocated array to the heap. -/
theorem runOpsH_getD (ops : List Op) : ∀ (s : HeapState) (j : ℕ),
    j < s.heap.length →
    (runOpsH s ops).heap.getD j [] = s.heap.getD j [] := by
  induction ops with
  | nil => intro s j _; rfl
  | cons op ops ih =>
    intro s j h
    have ha : ∃ a, (applyOpH s op).heap = s.heap ++ [a] := by
      cases op <;> exact ⟨_, rfl⟩
    obtain ⟨a, ha⟩ := ha
    have hlen : j < (applyOpH s op).heap.length := by
      rw [ha, List.length_append]
      omega
    have h2 : (applyOpH s op).heap.getD j [] = s.heap.getD j [] := by
      rw [ha]
      exact List.getD_append _ _ _ _ h
    have h3 : runOpsH s (op :: ops) = runOpsH (applyOpH s op) ops := rfl
    rw [h3, ih _ j hlen, h2]

/-! The claims. -/

/-- C1: the insertion policy scales a too-large image by
`min(600/width, 400/height)` and leaves a fitting image unchanged; on the
spec's three examples it gives (1200,800) ↦ (600,400), (300,200) ↦ (300,200)
and (800,300) ↦ (600,225). -/
theorem c1_scaling_policy :
    (∀ w h : ℚ, targetSize w h = specTargetSize w h)
      ∧ targetSize 1200 800 = (600, 400)
      ∧ targetSize 300 200 = (300, 200)
      ∧ targetSize 800 300 = (600, 225) := by
  refine ⟨fun w h => rfl, ?_, ?_, ?_⟩
  · rw [targetSize]
    norm_num [maxWidth, maxHeight, min_def]
  · rw [targetSize]
    norm_num [maxWidth, maxHeight]
  · rw [targetSize]
    norm_num [maxWidth, maxHeight, min_def]

/-- C2 (code evaluated at the failing input): when the image load fails,
`getImageDimensions` never settles, so `addImageToCanvas` stays pending
forever — no element is added, but contrary to the claim no error is ever
logged either, since the `catch` block only runs on a rejected Promise and
this Promise is never rejected. -/
theorem c2_probe_failure_hangs_without_log :
    addImageToCanvas .fails = .pending
      ∧ addImageToCanvas .fails ≠ .errorLogged
      ∧ ∀ w h, addImageToCanvas .fails ≠ .elementAdded w h := by
  refine ⟨rfl, by decide, fun w h => by simp [addImageToCanvas, getImageDimensions]⟩

/-- C3: after any sequence of addUpload/deleteUpload operations on an
initially empty store, `getUploads()` returns exactly the added records that
no later operation of the sequence deleted, in the order they were added. -/
theorem c3_list_equals_surviving_adds (ops : List Op) :
    getUploads (runOps emptyStore ops) = survivingAdds ops := by
  simp [getUploads, runOps_uploads, emptyStore]

/-- C4: each addUpload/deleteUpload call notifies every listener subscribed
at the time of the call exactly as often as it occurs in the listener list —
once for a listener subscribed once — and every notification carries the
post-mutation snapshot; subscribing emits no notification (no replay). -/
theorem c4_notify_exactly_once (u : Upload) (i : ℚ) (l₀ : ℕ) (s : StoreState) :
    ((addUpload u s).2.map Prod.fst = s.listeners)
      ∧ (∀ l : ℕ, ((addUpload u s).2.map Prod.fst).count l = s.listeners.count l)
      ∧ (∀ e ∈ (addUpload u s).2, e.2 = (addUpload u s).1.uploads)
      ∧ ((deleteUpload i s).2.map Prod.fst = s.listeners)
      ∧ (∀ l : ℕ, ((deleteUpload i s).2.map Prod.fst).count l = s.listeners.count l)
      ∧ (∀ e ∈ (deleteUpload i s).2, e.2 = (deleteUpload i s).1.uploads)
      ∧ (subscribe l₀ s).2 = [] := by
  have ha : (addUpload u s).2.map Prod.fst = s.listeners := by
    simp [addUpload, notifyListeners, List.map_map, Function.comp_def]
  have hd : (deleteUpload i s).2.map Prod.fst = s.listeners := by
    simp [deleteUpload, notifyListeners, List.map_map, Function.comp_def]
  refine ⟨ha, fun l => by rw [ha], ?_, hd, fun l => by rw [hd], ?_, rfl⟩
  · intro e he
    simp only [addUpload, notifyListeners, List.mem_map] at he
    obtain ⟨l, _, rfl⟩ := he
    rfl
  · intro e he
    simp only [deleteUpload, notifyListeners, List.mem_map] at he
    obtain ⟨l, _, rfl⟩ := he
    rfl

/-- C5 counterexample: the store does not enforce id uniqueness — adding two
records that carry the same id yields a reachable collection whose ids are
not pairwise distinct. -/
theorem c5_counterexample :
    ¬ (((runOps emptyStore [.add uA, .add uB]).uploads.map Upload.id).Nodup) := by
  decide

/-- C5 amended: the store itself never deduplicates, but whenever the ids
handed to the add operations of a sequence are pairwise distinct (the intent
of the `Date.now() + Math.random()` generator), every collection reachable
from the empty store has pairwise distinct ids. -/
theorem c5_amended_fresh_ids_unique (ops : List Op)
    (h : (addIds ops).Nodup) :
    (((runOps emptyStore ops).uploads).map Upload.id).Nodup := by
  have e : (runOps emptyStore ops).uploads = survivingAdds ops := by
    simpa [emptyStore] using runOps_uploads ops emptyStore
  rw [e]
  exact List.Nodup.sublist (survivingAdds_ids_sublist ops) h

/-- Witness for C5 amended at the sequence add id 1, delete id 1, add id 2. -/
theorem c5_amended_fresh_ids_unique_witness :
    (addIds [.add uA, .delete 1, .add uC]).Nodup
      ∧ (((runOps emptyStore [.add uA, .delete 1, .add uC]).uploads).map
          Upload.id).Nodup :=
  ⟨by decide, c5_amended_fresh_ids_unique _ (by decide)⟩

/-- C6 counterexample: calling addUpload with no input does not leave the
collection unchanged — the body appends the missing (`undefined`) argument
to the array, so the empty collection becomes a one-element collection. -/
theorem c6_counterexample : addUploadJs none [] ≠ [] := by decide

/-- C6 amended: a call to addUpload with no input appends an undefined entry
and (like every call) notifies; a call with a record appends that record and
notifies all subscribers with the new full collection snapshot. -/
theorem c6_amended_add_always_appends (u : Upload) (s : StoreState)
    (l : List (Option Upload)) :
    addUploadJs none l = l ++ [none]
      ∧ (addUpload u s).1.uploads = s.uploads ++ [u]
      ∧ (addUpload u s).2 = s.listeners.map (fun x => (x, s.uploads ++ [u])) :=
  ⟨rfl, rfl, rfl⟩

/-- C7: for positive intrinsic dimensions the computed target preserves the
aspect ratio exactly, and whenever downscaling applies the target fits the
600×400 bounding box. -/
theorem c7_fits_and_preserves_aspect (w h : ℚ) (hw : 0 < w) (hh : 0 < h) :
    (targetSize w h).1 * h = (targetSize w h).2 * w
      ∧ ((w > maxWidth ∨ h > maxHeight) →
          (targetSize w h).1 ≤ 600 ∧ (targetSize w h).2 ≤ 400) := by
  unfold targetSize
  by_cases hc : w > maxWidth ∨ h > maxHeight
  · simp only [hc, if_pos]
    constructor
    · ring
    · intro _
      constructor
      · calc w * min (maxWidth / w) (maxHeight / h)
              ≤ w * (maxWidth / w) :=
            mul_le_mul_of_nonneg_left (min_le_left _ _) hw.le
          _ = 600 := by
            rw [maxWidth, mul_div_assoc', mul_comm, mul_div_assoc]
            simp [div_self hw.ne']
      · calc h * min (maxWidth / w) (maxHeight / h)
              ≤ h * (maxHeight / h) :=
            mul_le_mul_of_nonneg_left (min_le_right _ _) hh.le
          _ = 400 := by
            rw [maxHeight, mul_div_assoc', mul_comm, mul_div_assoc]
            simp [div_self hh.ne']
  · rw [if_neg hc]
    exact ⟨by simp [mul_comm], fun hcon => absurd hcon hc⟩

/-- Witness for C7 at intrinsic size 1200 × 800. -/
theorem c7_fits_and_preserves_aspect_witness :
    (0:ℚ) < 1200 ∧ (0:ℚ) < 800
      ∧ ((targetSize 1200 800).1 * 800 = (targetSize 1200 800).2 * 1200
          ∧ (((1200:ℚ) > maxWidth ∨ (800:ℚ) > maxHeight) →
              (targetSize 1200 800).1 ≤ 600 ∧ (targetSize 1200 800).2 ≤ 400)) :=
  ⟨by norm_num, by norm_num,
    c7_fits_and_preserves_aspect 1200 800 (by norm_num) (by norm_num)⟩

/-- C8: deleting an id not present in the collection leaves the collection
unchanged, and the notification still fires with a snapshot equal in content
to the pre-call collection. -/
theorem c8_delete_absent_id (i : ℚ) (s : StoreState)
    (h : i ∉ s.uploads.map Upload.id) :
    (deleteUpload i s).1.uploads = s.uploads
      ∧ (deleteUpload i s).2 = s.listeners.map (fun l => (l, s.uploads)) := by
  have hu : s.uploads.filter (fun u => decide (u.id ≠ i)) = s.uploads := by
    apply List.filter_eq_self.mpr
    intro a ha
    simp only [decide_eq_true_eq]
    intro hEq
    exact h (by simpa [hEq] using List.mem_map_of_mem Upload.id ha)
  refine ⟨hu, ?_⟩
  have he : (deleteUpload i s).2
      = s.listeners.map
          (fun l => (l, s.uploads.filter (fun u => decide (u.id ≠ i)))) := rfl
  rw [he, hu]

/-- Witness for C8: deleting id 5 from a collection holding only id 1. -/
theorem c8_delete_absent_id_witness :
    ((5:ℚ) ∉ ([uA].map Upload.id))
      ∧ ((deleteUpload 5 { uploads := [uA], listeners := [0] }).1.uploads = [uA]
          ∧ (deleteUpload 5 { uploads := [uA], listeners := [0] }).2
              = [(0, [uA])]) := by
  refine ⟨by decide, ?_⟩
  have := c8_delete_absent_id 5 { uploads := [uA], listeners := [0] } (by decide)
  exact ⟨this.1, by simpa using this.2⟩

/-- C9: when the export filename is empty or consists only of whitespace,
`handleDownload` alerts and aborts: no link element is created, nothing is
downloaded. -/
theorem c9_blank_name_aborts (s : String) (h : ∀ c ∈ s.data, jsWhitespace c) :
    handleDownload s = .alerted := by
  have h1 : s.data.dropWhile jsWhitespace = [] :=
    List.dropWhile_eq_nil_iff.mpr h
  simp [handleDownload, jsTrim, h1]

/-- Witness for C9 on the two-space filename. -/
theorem c9_blank_name_aborts_witness :
    (∀ c ∈ ("  " : String).data, jsWhitespace c)
      ∧ handleDownload "  " = .alerted :=
  ⟨by decide, c9_blank_name_aborts "  " (by decide)⟩

/-- C10: heap cells holding earlier snapshots are never changed by later
addUpload/deleteUpload calls — every mutation allocates a freshly built
array (cell index `s.heap.length`) instead of mutating the current one, so
any snapshot handed out stays equal to itself forever. -/
theorem c10_snapshots_immutable (ops : List Op) (s : HeapState) (j : ℕ)
    (u : Upload) (i : ℚ) (h : j < s.heap.length) :
    (runOpsH s ops).heap.getD j [] = s.heap.getD j []
      ∧ (addUploadH u s).cur = s.heap.length
      ∧ (deleteUploadH i s).cur = s.heap.length :=
  ⟨runOpsH_getD ops s j h, rfl, rfl⟩

/-- Witness for C10: the module-initial array survives an add unchanged. -/
theorem c10_snapshots_immutable_witness :
    0 < initHeap.heap.length
      ∧ ((runOpsH initHeap [.add uA]).heap.getD 0 [] = initHeap.heap.getD 0 []
          ∧ (addUploadH uA initHeap).cur = initHeap.heap.length
          ∧ (deleteUploadH (1:ℚ) initHeap).cur = initHeap.heap.length) :=
  ⟨by decide, c10_snapshots_immutable [.add uA] initHeap 0 uA 1 (by decide)⟩

end ImageEditor
